import Mathlib

/-!
Verification of the photo-app repository: a shallow embedding of the
event bus, the capture pipeline (facade), the filter-decorator chain,
the byte-prefix codecs, and the gallery sort strategies, together with
theorems settling the specification claims.

Byte sequences are modelled as `List Nat` (all values are below 256 in
the source and no arithmetic overflows occur).  Go's `time.Time` is
modelled by its UnixNano value.  `nil` and empty slices coincide in the
list model, which is faithful for every observation the claims make.
-/

namespace PhotoApp

/-- Byte sequences (`[]byte`). -/
abbrev Bytes := List Nat

/-- `image.ImageMetadata`: metadata about an image.  Default values are
the Go zero values of the corresponding fields, used by composite
literals that omit fields (as in the decoders). -/
structure ImageMetadata where
  id : String := ""
  width : Int := 0
  height : Int := 0
  capturedAt : Nat := 0
  rating : Int := 0
  filters : List String := []
  format : String := ""
  description : String := ""
deriving DecidableEq, Repr

/-- Values implementing the `image.Image` interface that occur in the
pipeline: a `BasicImage` or a `FilterDecorator` wrapping another image.
The decorator constructor's panic conditions are modelled in
`newFilterDecorator` below. -/
inductive Img where
  | basic (id : String) (data : Bytes) (meta : ImageMetadata)
  | deco (wrapped : Img) (filter : String)
deriving DecidableEq, Repr

/-- `image.NewBasicImage`: stores the id into the metadata. -/
def newBasicImage (id : String) (data : Bytes) (meta : ImageMetadata) : Img :=
  .basic id data { meta with id := id }

/-- `ID()`: the decorator delegates to the wrapped image. -/
def Img.idOf : Img → String
  | .basic i _ _ => i
  | .deco w _ => w.idOf

/-- `Data()`: the decorator delegates to the wrapped image. -/
def Img.dataOf : Img → Bytes
  | .basic _ d _ => d
  | .deco w _ => w.dataOf

/-- `Metadata()`: `BasicImage` returns its stored metadata;
`FilterDecorator` reads the wrapped metadata and appends its filter
name to the `Filters` sequence. -/
def Img.metadataOf : Img → ImageMetadata
  | .basic _ _ m => m
  | .deco w f =>
    let m := w.metadataOf
    { m with filters := m.filters ++ [f] }

/-! ## Codec (`internal/codec/codec.go`) -/

/-- The JPEG magic bytes `FF D8 FF E0` prepended by `JPEGEncoder.Encode`. -/
def jpegMagic : Bytes := [0xFF, 0xD8, 0xFF, 0xE0]

/-- The PNG signature `89 50 4E 47 0D 0A 1A 0A` prepended by `PNGEncoder.Encode`. -/
def pngMagic : Bytes := [0x89, 0x50, 0x4E, 0x47, 0x0D, 0x0A, 0x1A, 0x0A]

/-- `JPEGEncoder.Encode`: prefixes the image data with the JPEG magic
bytes and never returns an error. -/
def jpegEncode (img : Img) : Except String Bytes :=
  .ok (jpegMagic ++ img.dataOf)

/-- `PNGEncoder.Encode`: prefixes the image data with the PNG signature
and never returns an error. -/
def pngEncode (img : Img) : Except String Bytes :=
  .ok (pngMagic ++ img.dataOf)

/-- `JPEGDecoder.Decode`: rejects inputs shorter than 4 bytes or not
starting with `FF D8`; otherwise strips the 4 header bytes and returns
a fresh basic image with fixed metadata. -/
def jpegDecode (data : Bytes) : Except String Img :=
  if data.length < 4 ∨ data.get? 0 ≠ some 0xFF ∨ data.get? 1 ≠ some 0xD8 then
    .error "invalid JPEG data"
  else
    .ok (newBasicImage "decoded-jpeg" (data.drop 4)
      { format := "JPEG", width := 1920, height := 1080 })

/-- `PNGDecoder.Decode`: rejects inputs shorter than 8 bytes or not
starting with `89 50`; otherwise strips the 8 header bytes and returns
a fresh basic image with fixed metadata. -/
def pngDecode (data : Bytes) : Except String Img :=
  if data.length < 8 ∨ data.get? 0 ≠ some 0x89 ∨ data.get? 1 ≠ some 0x50 then
    .error "invalid PNG data"
  else
    .ok (newBasicImage "decoded-png" (data.drop 8)
      { format := "PNG", width := 1920, height := 1080 })

/-! ## Factory (`internal/camera`, factory file) -/

/-- The sources of nondeterminism in `Factory.CreatePhoto`: the random
payload from `rand.Read`, the current `time.Now().UnixNano()`, and the
`rand.Intn(maxRating)` draw (a value in `[0, 5)`, modelled as an
arbitrary natural taken modulo 5). -/
structure CaptureEnv where
  randData : Bytes
  nowNano : Nat
  randRating : Nat
deriving DecidableEq, Repr

/-- `Factory.getDescription`. -/
def getDescription (photoType : String) : String :=
  if photoType = "landscape" then "Beautiful landscape photo"
  else if photoType = "portrait" then "Portrait photo"
  else "Standard photo"

/-- `Factory.CreatePhoto`: builds a basic image with default dimensions,
the current timestamp, a random rating in `[1, 5]`, an empty filter
history, format `JPEG`, and an id derived from the clock. -/
def factoryCreatePhoto (env : CaptureEnv) (photoType : String) : Img :=
  newBasicImage ("photo-" ++ toString env.nowNano) env.randData
    { width := 1920, height := 1080, capturedAt := env.nowNano,
      rating := Int.ofNat (env.randRating % 5) + 1, filters := [],
      format := "JPEG", description := getDescription photoType }

/-! ## Decorator construction and the facade's filter fold -/

/-- `image.NewFilterDecorator`: panics when the filter name is empty
(the nil-image panic has no counterpart here, since the `Img` type has
no null value).  A panic is modelled as `none`. -/
def newFilterDecorator (img : Img) (filter : String) : Option Img :=
  if filter = "" then none else some (.deco img filter)

/-- `Facade.applyFilters`: folds the filter names left-to-right, each
wrapping the previous image; `none` when some construction panics. -/
def applyFilters (photo : Img) : List String → Option Img
  | [] => some photo
  | f :: rest =>
    match newFilterDecorator photo f with
    | none => none
    | some img => applyFilters img rest

/-! ## Events and the facade pipeline (`internal/camera/facade.go`) -/

/-- `events.EventType`. -/
inductive EventType where
  | imageCaptured
  | imageProcessed
  | gallerySorted
  | imageEncoded
deriving DecidableEq, Repr

/-- A record of one `EventBus.Notify` call made by the facade: the
event's type, the id of its subject image (if any), and its message. -/
structure EventRec where
  etype : EventType
  imageId : Option String
  message : String
deriving DecidableEq, Repr

/-- The outcome of one `CaptureAndProcess` call: its return value, the
storage collaborator's final state, and the events published during the
call, in publication order. -/
structure RunOut (σ : Type) where
  result : Except String Bytes
  store : σ
  events : List EventRec
deriving Repr

/-- `Facade.selectEncoder` composed with `Encode`: formats whose
lower-casing equals `png` select the PNG encoder, everything else
(including the empty string) the JPEG encoder. -/
def encodePhoto (format : String) (img : Img) : Except String Bytes :=
  if format.toLower = "png" then pngEncode img else jpegEncode img

/-- The `ImageCaptured` event published by `Facade.createPhoto` for the
photo the factory builds from `env`. -/
def capturedEvent (env : CaptureEnv) : EventRec :=
  { etype := .imageCaptured, imageId := some ("photo-" ++ toString env.nowNano),
    message := "Photo created" }

/-- `Facade.CaptureAndProcess`, parameterized over the encoder behaviour
(the `codec.Encoder` collaborator keyed by format) and the storage
collaborator's `Save` (explicit state passing for the storage state).
The control flow mirrors the source: create the photo, publish
`ImageCaptured`, fold the filters, encode (wrapping errors with
`encode photo:`), save (wrapping errors with `save photo:`), publish
`ImageProcessed`, return the encoded bytes.  `none` models a panic from
`NewFilterDecorator`. -/
def captureAndProcessGen (σ : Type) (encodeFn : String → Img → Except String Bytes)
    (save : String → Bytes → σ → Except String σ)
    (env : CaptureEnv) (photoType : String) (filters : List String)
    (format : String) (st : σ) : Option (RunOut σ) :=
  match applyFilters (factoryCreatePhoto env photoType) filters with
  | none => none
  | some processed =>
    match encodeFn format processed with
    | .error e =>
      some { result := .error ("encode photo: " ++ e), store := st,
             events := [{ etype := .imageCaptured,
                          imageId := some (factoryCreatePhoto env photoType).idOf,
                          message := "Photo created" }] }
    | .ok encoded =>
      match save processed.idOf encoded st with
      | .error e =>
        some { result := .error ("save photo: " ++ e), store := st,
               events := [{ etype := .imageCaptured,
                            imageId := some (factoryCreatePhoto env photoType).idOf,
                            message := "Photo created" }] }
      | .ok st2 =>
        some { result := .ok encoded, store := st2,
               events := [{ etype := .imageCaptured,
                            imageId := some (factoryCreatePhoto env photoType).idOf,
                            message := "Photo created" },
                          { etype := .imageProcessed, imageId := some processed.idOf,
                            message := "Processed" }] }

/-- `Facade.CaptureAndProcess` with the repository's concrete encoder
selection (`selectEncoder`). -/
def captureAndProcess (σ : Type) (save : String → Bytes → σ → Except String σ)
    (env : CaptureEnv) (photoType : String) (filters : List String)
    (format : String) (st : σ) : Option (RunOut σ) :=
  captureAndProcessGen σ encodePhoto save env photoType filters format st

/-! ## Event bus (`internal/events/event.go`) -/

/-- An observer's identity.  Go compares observers by interface-value
identity (`obs == observer`); two registrations of the same observer
are equal, distinct observers are not. -/
structure Observer where
  oid : Nat
deriving DecidableEq, Repr

/-- `EventBus.Register`: appends to the registration list (duplicates
are allowed). -/
def busRegister (l : List Observer) (o : Observer) : List Observer :=
  l ++ [o]

/-- `EventBus.Unregister`: removes the first entry identical to the
argument; a no-op when no entry matches. -/
def busUnregister : List Observer → Observer → List Observer
  | [], _ => []
  | x :: xs, o => if x = o then xs else x :: busUnregister xs o

/-- The delivery loop of `EventBus.Notify` after the snapshot copy: the
first list argument is the snapshot still to be served, the second the
live registration list.  Each observer's `OnEvent` callback may change
the live list arbitrarily (`onEvent` covers any sequence of `Register`
and `Unregister` calls, including none).  Returns the final live list
and the delivery log: which observer received which event, in order. -/
def notifyLoop (onEvent : Observer → EventRec → List Observer → List Observer)
    (ev : EventRec) :
    List Observer → List Observer → List Observer × List (Observer × EventRec)
  | [], st => (st, [])
  | o :: rest, st =>
    let st2 := onEvent o ev st
    let r := notifyLoop onEvent ev rest st2
    (r.1, (o, ev) :: r.2)

/-- `EventBus.Notify`: copies the registration list under the read lock,
releases it, then invokes each snapshotted observer in order. -/
def busNotify (onEvent : Observer → EventRec → List Observer → List Observer)
    (ev : EventRec) (st : List Observer) :
    List Observer × List (Observer × EventRec) :=
  notifyLoop onEvent ev st st

/-! ## Heap model for the decorator frame property

`BasicImage` is mutable in the source (`SetData`, `SetMetadata`), so for
the non-aliasing claim the base images live in an explicit heap and
every operation threads the heap, showing exactly which operations can
change it. -/

/-- The mutable state of one `BasicImage` cell. -/
structure BasicImageState where
  id : String
  data : Bytes
  metadata : ImageMetadata
deriving DecidableEq, Repr

/-- The heap of allocated `BasicImage` cells, addressed by position. -/
abbrev Heap := List BasicImageState

/-- A held reference to an image: a pointer to a basic image, or a
decorator node (immutable in the source: its fields are never
reassigned) around another reference. -/
inductive ImgRef where
  | basicRef (p : Nat)
  | deco (wrapped : ImgRef) (filter : String)
deriving DecidableEq, Repr

/-- Reading a descriptor through a reference: `BasicImage.Metadata`
returns the stored metadata (`none` for a dangling pointer, which the
source cannot produce); `FilterDecorator.Metadata` reads the wrapped
descriptor and appends its filter name.  The heap is threaded and
returned so the statement that reads do not mutate it is a theorem, not
a modelling assumption. -/
def readMetadata (h : Heap) : ImgRef → Option ImageMetadata × Heap
  | .basicRef p => ((h.get? p).map (fun s => s.metadata), h)
  | .deco w f =>
    let r := readMetadata h w
    (r.1.map (fun m => { m with filters := m.filters ++ [f] }), r.2)

/-- `image.NewFilterDecorator` on references: allocates a new decorator
node (a pure value) without touching any existing cell; panics (`none`)
on an empty filter name. -/
def wrapFilter (h : Heap) (img : ImgRef) (f : String) : Option ImgRef × Heap :=
  (if f = "" then none else some (.deco img f), h)

/-- The innermost basic-image cell a reference designates
(`FilterDecorator` delegates `SetData`/`SetMetadata` all the way down). -/
def innerPtr : ImgRef → Nat
  | .basicRef p => p
  | .deco w _ => innerPtr w

/-- Replace the cell at an index, leaving other cells untouched. -/
def heapSet : Heap → Nat → BasicImageState → Heap
  | [], _, _ => []
  | _ :: xs, 0, v => v :: xs
  | x :: xs, n + 1, v => x :: heapSet xs n v

/-- `SetMetadata` through a reference: mutates the innermost basic
image's cell (included to show the heap model is genuinely mutable). -/
def setMetadataRef (h : Heap) (r : ImgRef) (m : ImageMetadata) : Heap :=
  match h.get? (innerPtr r) with
  | none => h
  | some s => heapSet h (innerPtr r) { s with metadata := m }

/-! ## Gallery sort strategies (`gallery` file) -/

/-- The `less` closure of `SortByDate.Sort`: `CapturedAt.Before` when
ascending, `CapturedAt.After` when descending. -/
def dateLess (ascending : Bool) (a b : Img) : Bool :=
  if ascending then decide (a.metadataOf.capturedAt < b.metadataOf.capturedAt)
  else decide (b.metadataOf.capturedAt < a.metadataOf.capturedAt)

/-- The `less` closure of `SortByRating.Sort`: `Rating <` when
ascending, `Rating >` when descending. -/
def ratingLess (ascending : Bool) (a b : Img) : Bool :=
  if ascending then decide (a.metadataOf.rating < b.metadataOf.rating)
  else decide (b.metadataOf.rating < a.metadataOf.rating)

/-- The contract of Go's `sort.Slice` on the copied slice: the output
is some permutation of the input in which no adjacent pair is inverted
under `less`.  `sort.Slice` documents that the sort is NOT guaranteed
to be stable, so this relation is the faithful model of what the
strategies' `Sort` methods (copy, then `sort.Slice`, then return the
copy; the input slice is left untouched) may return. -/
def sortSlice (less : Img → Img → Bool) (input output : List Img) : Prop :=
  output.Perm input ∧ output.Chain' (fun a b => less b a = false)

/-- `SortByDate.Sort` as a relation between input and possible outputs. -/
def sortByDate (ascending : Bool) (input output : List Img) : Prop :=
  sortSlice (dateLess ascending) input output

/-- `SortByRating.Sort` as a relation between input and possible outputs. -/
def sortByRating (ascending : Bool) (input output : List Img) : Prop :=
  sortSlice (ratingLess ascending) input output

/-- Total order on capture time in the strategy's direction. -/
def dateLE (ascending : Bool) (a b : Img) : Prop :=
  if ascending then a.metadataOf.capturedAt ≤ b.metadataOf.capturedAt
  else b.metadataOf.capturedAt ≤ a.metadataOf.capturedAt

/-- Total order on rating in the strategy's direction. -/
def ratingLE (ascending : Bool) (a b : Img) : Prop :=
  if ascending then a.metadataOf.rating ≤ b.metadataOf.rating
  else b.metadataOf.rating ≤ a.metadataOf.rating

/-- A sequence is ordered when every adjacent pair respects `le`. -/
def sortedBy (le : Img → Img → Prop) (l : List Img) : Prop :=
  l.Chain' le

/-- Two images with equal ratings, used to exhibit a tie. -/
def imgA : Img := newBasicImage "a" [] { rating := 3, capturedAt := 1 }

/-- Second image of the tie, later capture time, same rating. -/
def imgB : Img := newBasicImage "b" [] { rating := 3, capturedAt := 2 }

/-! ## Helper lemmas -/

theorem notifyLoop_log (onEvent : Observer → EventRec → List Observer → List Observer)
    (ev : EventRec) :
    ∀ (snap st : List Observer),
      (notifyLoop onEvent ev snap st).2 = snap.map (fun o => (o, ev))
  | [], _ => rfl
  | o :: rest, st => by
    simp [notifyLoop, notifyLoop_log onEvent ev rest (onEvent o ev st)]

theorem busUnregister_not_mem : ∀ (l : List Observer) (o : Observer),
    o ∉ l → busUnregister l o = l
  | [], _, _ => rfl
  | x :: xs, o, h => by
    have hx : x ≠ o := fun hxo => h (hxo ▸ List.mem_cons_self x xs)
    simp [busUnregister, hx, busUnregister_not_mem xs o (fun hm => h (List.mem_cons_of_mem x hm))]

theorem busUnregister_append_first : ∀ (l1 l2 : List Observer) (o : Observer),
    o ∉ l1 → busUnregister (l1 ++ o :: l2) o = l1 ++ l2
  | [], l2, o, _ => by simp [busUnregister]
  | x :: xs, l2, o, h => by
    have hx : x ≠ o := fun hxo => h (hxo ▸ List.mem_cons_self x xs)
    simp [busUnregister, hx,
      busUnregister_append_first xs l2 o (fun hm => h (List.mem_cons_of_mem x hm))]

theorem applyFilters_ok : ∀ (names : List String) (b : Img), "" ∉ names →
    ∃ img, applyFilters b names = some img ∧
      img.metadataOf.filters = b.metadataOf.filters ++ names
  | [], b, _ => ⟨b, rfl, by simp⟩
  | f :: rest, b, h => by
    have hf : ¬f = "" := fun hfe => h (by rw [← hfe]; exact List.mem_cons_self f rest)
    have h2 : "" ∉ rest := fun hm => h (List.mem_cons_of_mem f hm)
    obtain ⟨img, heq, hfil⟩ := applyFilters_ok rest (Img.deco b f) h2
    refine ⟨img, ?_, ?_⟩
    · simp [applyFilters, newFilterDecorator, hf, heq]
    · rw [hfil]; simp [Img.metadataOf]

theorem encodePhoto_ok (format : String) (img : Img) :
    ∃ b, encodePhoto format img = Except.ok b := by
  unfold encodePhoto
  split
  · exact ⟨_, rfl⟩
  · exact ⟨_, rfl⟩

theorem readMetadata_heap (h : Heap) : ∀ r : ImgRef, (readMetadata h r).2 = h
  | .basicRef _ => rfl
  | .deco w _ => by simp [readMetadata, readMetadata_heap h w]

/-! ## Claim theorems -/

/-- C1: `EventBus.Notify` invokes `OnEvent` exactly once on each
subscriber present at the moment Notify begins, in registration order;
the callbacks' own effects on the live registration list (`onEvent` is
an arbitrary mutation, covering any sequence of Register/Unregister
calls, including a subscriber unregistering itself) do not change which
subscribers receive the event or their order: the delivery log is
exactly the entry snapshot. -/
theorem eventBus_notify_snapshot
    (onEvent : Observer → EventRec → List Observer → List Observer)
    (ev : EventRec) (st : List Observer) :
    (busNotify onEvent ev st).2 = st.map (fun o => (o, ev)) :=
  notifyLoop_log onEvent ev st st

/-- C5: `EventBus.Unregister` removes exactly the first entry identical
to the argument, preserving all other entries and their order (`l2` may
contain further copies, so a single call removes at most one); when no
entry matches the list is unchanged and no error occurs (the function
is total); `Register` appends unconditionally, so duplicate
registrations are permitted. -/
theorem eventBus_unregister_first_match (l1 l2 : List Observer) (o : Observer)
    (h : o ∉ l1) :
    busUnregister (l1 ++ o :: l2) o = l1 ++ l2 ∧
    busUnregister l1 o = l1 ∧
    busRegister (busRegister l1 o) o = l1 ++ [o, o] := by
  refine ⟨busUnregister_append_first l1 l2 o h, busUnregister_not_mem l1 o h, ?_⟩
  simp [busRegister]

/-- Witness for C5 at a concrete registration list containing a
duplicate of the unregistered observer after the first match. -/
theorem eventBus_unregister_first_match_witness :
    busUnregister ([⟨1⟩, ⟨2⟩] ++ ⟨3⟩ :: [⟨3⟩, ⟨4⟩]) ⟨3⟩ = [⟨1⟩, ⟨2⟩] ++ [⟨3⟩, ⟨4⟩] ∧
    busUnregister [⟨1⟩, ⟨2⟩] ⟨3⟩ = [⟨1⟩, ⟨2⟩] ∧
    busRegister (busRegister [⟨1⟩, ⟨2⟩] ⟨3⟩) ⟨3⟩ = [⟨1⟩, ⟨2⟩] ++ [⟨3⟩, ⟨3⟩] :=
  eventBus_unregister_first_match [⟨1⟩, ⟨2⟩] [⟨3⟩, ⟨4⟩] ⟨3⟩ (by decide)

/-- C9: the built-in encoders are total: for every image (no condition
on the payload, so the nil/empty payload cases are included) both
`Encode` methods return a nil error, and the bytes are exactly the
format's magic header followed by the image's payload. -/
theorem codec_encode_total (img : Img) :
    jpegEncode img = Except.ok ([0xFF, 0xD8, 0xFF, 0xE0] ++ img.dataOf) ∧
    pngEncode img = Except.ok ([0x89, 0x50, 0x4E, 0x47, 0x0D, 0x0A, 0x1A, 0x0A] ++ img.dataOf) :=
  ⟨rfl, rfl⟩

theorem jpegDecode_magic (l : Bytes) :
    jpegDecode (jpegMagic ++ l) =
      Except.ok (newBasicImage "decoded-jpeg" l
        { format := "JPEG", width := 1920, height := 1080 }) := by
  rw [jpegDecode, if_neg]
  · rfl
  · simp [jpegMagic]

theorem pngDecode_magic (l : Bytes) :
    pngDecode (pngMagic ++ l) =
      Except.ok (newBasicImage "decoded-png" l
        { format := "PNG", width := 1920, height := 1080 }) := by
  rw [pngDecode, if_neg]
  · rfl
  · simp [pngMagic]

/-- C10: encode-then-decode of the same format round-trips the payload:
for every image, the decoder accepts the encoder's output and returns a
basic image whose payload equals the input image's payload byte for
byte, whose identity is the constant `decoded-jpeg` / `decoded-png`
(the original identity is not preserved), and whose descriptor is the
decoder's fixed default metadata (format tag, 1920x1080, all other
fields zero-valued). -/
theorem codec_roundtrip (img : Img) :
    (jpegEncode img).bind jpegDecode =
      Except.ok (newBasicImage "decoded-jpeg" img.dataOf
        { format := "JPEG", width := 1920, height := 1080 }) ∧
    (pngEncode img).bind pngDecode =
      Except.ok (newBasicImage "decoded-png" img.dataOf
        { format := "PNG", width := 1920, height := 1080 }) :=
  ⟨jpegDecode_magic img.dataOf, pngDecode_magic img.dataOf⟩

theorem jpegDecode_error_iff (data : Bytes) :
    (∃ e, jpegDecode data = Except.error e) ↔
      (data.length < 4 ∨ data.get? 0 ≠ some 0xFF ∨ data.get? 1 ≠ some 0xD8) := by
  rw [jpegDecode]
  split
  · exact iff_of_true ⟨_, rfl⟩ (by assumption)
  · refine iff_of_false ?_ (by assumption)
    rintro ⟨e, he⟩
    exact Except.noConfusion he

theorem pngDecode_error_iff (data : Bytes) :
    (∃ e, pngDecode data = Except.error e) ↔
      (data.length < 8 ∨ data.get? 0 ≠ some 0x89 ∨ data.get? 1 ≠ some 0x50) := by
  rw [pngDecode]
  split
  · exact iff_of_true ⟨_, rfl⟩ (by assumption)
  · refine iff_of_false ?_ (by assumption)
    rintro ⟨e, he⟩
    exact Except.noConfusion he

theorem jpegCond_iff (data : Bytes) :
    (data.length < 4 ∨ data.get? 0 ≠ some 0xFF ∨ data.get? 1 ≠ some 0xD8) ↔
      (data.length < 4 ∨ data.take 2 ≠ jpegMagic.take 2) := by
  rcases data with _ | ⟨a, _ | ⟨b, rest⟩⟩ <;> simp [jpegMagic, List.get?]
  tauto

theorem pngCond_iff (data : Bytes) :
    (data.length < 8 ∨ data.get? 0 ≠ some 0x89 ∨ data.get? 1 ≠ some 0x50) ↔
      (data.length < 8 ∨ data.take 2 ≠ pngMagic.take 2) := by
  rcases data with _ | ⟨a, _ | ⟨b, rest⟩⟩ <;> simp [pngMagic, List.get?]
  tauto

/-- C7: each decoder fails with its invalid-format error exactly when
the input is shorter than the expected header length (4 bytes for JPEG,
8 for PNG) or does not carry the decoder's required magic-byte prefix
(the first two magic bytes, `FF D8` resp. `89 50`, are what the source
checks); otherwise it succeeds and the returned artifact's payload is
the input with the header bytes removed. -/
theorem codec_decode_header_check (data : Bytes) :
    ((∃ e, jpegDecode data = Except.error e) ↔
      (data.length < 4 ∨ data.take 2 ≠ jpegMagic.take 2)) ∧
    (∀ img, jpegDecode data = Except.ok img → img.dataOf = data.drop 4) ∧
    ((∃ e, pngDecode data = Except.error e) ↔
      (data.length < 8 ∨ data.take 2 ≠ pngMagic.take 2)) ∧
    (∀ img, pngDecode data = Except.ok img → img.dataOf = data.drop 8) := by
  refine ⟨(jpegDecode_error_iff data).trans (jpegCond_iff data), ?_,
    (pngDecode_error_iff data).trans (pngCond_iff data), ?_⟩
  · intro img hok
    rw [jpegDecode] at hok
    split at hok
    · exact absurd hok (by simp)
    · cases hok; rfl
  · intro img hok
    rw [pngDecode] at hok
    split at hok
    · exact absurd hok (by simp)
    · cases hok; rfl

/-- Witness for C7: a one-byte input is rejected by the JPEG decoder,
and a well-formed five-byte JPEG input decodes to the payload with the
4 header bytes removed. -/
theorem codec_decode_header_check_witness :
    (∃ e, jpegDecode [0xFF] = Except.error e) ∧
    (newBasicImage "decoded-jpeg" [9]
      { format := "JPEG", width := 1920, height := 1080 }).dataOf =
      [0xFF, 0xD8, 0xFF, 0xE0, 9].drop 4 :=
  ⟨(codec_decode_header_check [0xFF]).1.mpr (by decide),
   (codec_decode_header_check [0xFF, 0xD8, 0xFF, 0xE0, 9]).2.1
     (newBasicImage "decoded-jpeg" [9]
       { format := "JPEG", width := 1920, height := 1080 }) rfl⟩

/-- C2: folding any list of non-empty transformation names into a
decorator chain around a factory-created base artifact (whose initial
history is empty) succeeds, and the final wrapper's descriptor carries
exactly those names in application order; for the empty list the
artifact stays unwrapped. -/
theorem transformChain_order_preservation (env : CaptureEnv) (photoType : String)
    (names : List String) (h : "" ∉ names) :
    ∃ img, applyFilters (factoryCreatePhoto env photoType) names = some img ∧
      img.metadataOf.filters = names ∧
      (names = [] → img = factoryCreatePhoto env photoType) := by
  obtain ⟨img, heq, hfil⟩ := applyFilters_ok names (factoryCreatePhoto env photoType) h
  refine ⟨img, heq, ?_, ?_⟩
  · rw [hfil]
    simp [factoryCreatePhoto, newBasicImage, Img.metadataOf]
  · rintro rfl
    cases heq
    rfl

/-- Witness for C2 at a concrete two-name filter list. -/
theorem transformChain_order_preservation_witness :
    ∃ img,
      applyFilters (factoryCreatePhoto ⟨[], 0, 0⟩ "portrait") ["grayscale", "sepia"] = some img ∧
      img.metadataOf.filters = ["grayscale", "sepia"] ∧
      (["grayscale", "sepia"] = ([] : List String) →
        img = factoryCreatePhoto ⟨[], 0, 0⟩ "portrait") :=
  transformChain_order_preservation ⟨[], 0, 0⟩ "portrait" ["grayscale", "sepia"] (by decide)

/-- C3: when the storage collaborator's `Save` always returns an error,
`CaptureAndProcess` returns a storage-stage error (`save photo: ...`,
and hence nil bytes), leaves the storage state unchanged, and the
events published during the call are exactly one `ImageCaptured` — so
no `ImageProcessed` event is published while the `ImageCaptured` event
has already fired.  Filter names are required to be non-empty, since an
empty name makes `NewFilterDecorator` panic instead of returning
(spec section 7 classes that as a fatal precondition violation outside
the error-return contract). -/
theorem pipeline_storage_short_circuit
    (σ : Type) (save : String → Bytes → σ → Except String σ)
    (env : CaptureEnv) (photoType : String) (filters : List String)
    (format : String) (st : σ)
    (hsave : ∀ i d s, ∃ e, save i d s = Except.error e)
    (hfil : "" ∉ filters) :
    ∃ e out, captureAndProcess σ save env photoType filters format st = some out ∧
      out.result = Except.error ("save photo: " ++ e) ∧
      out.store = st ∧
      out.events.map EventRec.etype = [EventType.imageCaptured] := by
  obtain ⟨processed, hap, _⟩ := applyFilters_ok filters (factoryCreatePhoto env photoType) hfil
  obtain ⟨b, henc⟩ := encodePhoto_ok format processed
  obtain ⟨e, hs⟩ := hsave processed.idOf b st
  refine ⟨e, { result := Except.error ("save photo: " ++ e), store := st,
               events := [capturedEvent env] }, ?_, rfl, rfl, rfl⟩
  unfold captureAndProcess captureAndProcessGen
  rw [hap]
  simp only [henc, hs, capturedEvent, factoryCreatePhoto, newBasicImage, Img.idOf]

/-- Witness for C3: an always-failing storage collaborator over a unit
state, with a concrete capture request. -/
theorem pipeline_storage_short_circuit_witness :
    ∃ e out,
      captureAndProcess Unit (fun _ _ _ => Except.error "disk full") ⟨[], 0, 0⟩
        "portrait" ["grayscale"] "png" () = some out ∧
      out.result = Except.error ("save photo: " ++ e) ∧
      out.store = () ∧
      out.events.map EventRec.etype = [EventType.imageCaptured] :=
  pipeline_storage_short_circuit Unit (fun _ _ _ => Except.error "disk full") ⟨[], 0, 0⟩
    "portrait" ["grayscale"] "png" () (fun _ _ _ => ⟨"disk full", rfl⟩) (by decide)

/-- C6: when the encoder collaborator returns an error for the wrapped
artifact, `CaptureAndProcess` aborts with an encoding-stage error
(`encode photo: ...`, hence nil bytes), the storage state is the
unchanged input state (nothing is persisted, `Save` is never reached),
and the only event published is the earlier `ImageCaptured` — no
`ImageProcessed` event.  The encoder is the `codec.Encoder`
collaborator of spec section 6; the repository's two concrete encoders
are total (theorem for C9), so the failing branch is exercised through
the interface. -/
theorem pipeline_encode_short_circuit
    (σ : Type) (encodeFn : String → Img → Except String Bytes)
    (save : String → Bytes → σ → Except String σ)
    (env : CaptureEnv) (photoType : String) (filters : List String)
    (format : String) (st : σ) (processed : Img) (e : String)
    (hap : applyFilters (factoryCreatePhoto env photoType) filters = some processed)
    (henc : encodeFn format processed = Except.error e) :
    captureAndProcessGen σ encodeFn save env photoType filters format st =
      some { result := Except.error ("encode photo: " ++ e), store := st,
             events := [capturedEvent env] } := by
  unfold captureAndProcessGen
  rw [hap]
  simp only [henc, capturedEvent, factoryCreatePhoto, newBasicImage, Img.idOf]

/-- Witness for C6: an always-failing encoder, a storage `Save` that
would succeed, and a concrete capture request. -/
theorem pipeline_encode_short_circuit_witness :
    captureAndProcessGen Unit (fun _ _ => Except.error "boom")
      (fun _ _ s => Except.ok s) ⟨[], 0, 0⟩ "portrait" ["grayscale"] "jpeg" () =
      some { result := Except.error ("encode photo: " ++ "boom"), store := (),
             events := [capturedEvent ⟨[], 0, 0⟩] } :=
  pipeline_encode_short_circuit Unit (fun _ _ => Except.error "boom")
    (fun _ _ s => Except.ok s) ⟨[], 0, 0⟩ "portrait" ["grayscale"] "jpeg" ()
    (Img.deco (factoryCreatePhoto ⟨[], 0, 0⟩ "portrait") "grayscale") "boom" rfl rfl

/-- C4: wrapping an artifact in a new `FilterDecorator` returns the new
node without touching the heap of basic-image cells, and reading any
descriptor leaves the heap unchanged; consequently the
transformation-history observed through any previously-held reference
`prev` (an earlier wrapper around the same base, or the base itself) is
the same after the wrap and after a read of the new wrapper as before,
while the new wrapper's descriptor is the wrapped descriptor with the
new name appended.  Freshness of the returned history is captured by
reads being recomputed from the heap and the reference alone. -/
theorem decorator_non_aliasing (h : Heap) (prev target r : ImgRef) (f : String)
    (hf : f ≠ "") :
    (wrapFilter h target f).2 = h ∧
    (readMetadata h r).2 = h ∧
    ∃ nr, (wrapFilter h target f).1 = some nr ∧
      (readMetadata (readMetadata h nr).2 prev).1 = (readMetadata h prev).1 ∧
      (readMetadata h nr).1 =
        (readMetadata h target).1.map (fun m => { m with filters := m.filters ++ [f] }) := by
  refine ⟨rfl, readMetadata_heap h r, ⟨.deco target f, ?_, ?_, ?_⟩⟩
  · simp [wrapFilter, hf]
  · rw [readMetadata_heap h (.deco target f)]
  · simp [readMetadata]

/-- Witness for C4 on a one-cell heap, with the previously-held
reference being an earlier wrapper around the same base. -/
theorem decorator_non_aliasing_witness :
    (wrapFilter [⟨"img1", [], {}⟩] (.basicRef 0) "grayscale").2 = [⟨"img1", [], {}⟩] ∧
    (readMetadata [⟨"img1", [], {}⟩] (.deco (.basicRef 0) "sepia")).2 = [⟨"img1", [], {}⟩] ∧
    ∃ nr, (wrapFilter [⟨"img1", [], {}⟩] (.basicRef 0) "grayscale").1 = some nr ∧
      (readMetadata (readMetadata [⟨"img1", [], {}⟩] nr).2
        (.deco (.basicRef 0) "sepia")).1 =
        (readMetadata [⟨"img1", [], {}⟩] (.deco (.basicRef 0) "sepia")).1 ∧
      (readMetadata [⟨"img1", [], {}⟩] nr).1 =
        (readMetadata [⟨"img1", [], {}⟩] (.basicRef 0)).1.map
          (fun m => { m with filters := m.filters ++ ["grayscale"] }) :=
  decorator_non_aliasing [⟨"img1", [], {}⟩] (.deco (.basicRef 0) "sepia") (.basicRef 0)
    (.deco (.basicRef 0) "sepia") "grayscale" (by decide)

/-- C8 counterexample: the claim requires ties between equal keys to be
broken by input order (stable sort), but the strategies sort the copied
slice with Go's `sort.Slice`, whose contract does not guarantee
stability.  For the two equal-rating images `imgA, imgB`, the output
`[imgB, imgA]` satisfies everything `SortByRating(ascending).Sort`
guarantees, yet reverses the tie, so the claim as stated is false. -/
theorem gallery_sort_stability_cex :
    sortByRating true [imgA, imgB] [imgB, imgA] ∧
    imgA.metadataOf.rating = imgB.metadataOf.rating ∧
    [imgB, imgA] ≠ [imgA, imgB] ∧
    List.filter (fun x => decide (x.metadataOf.rating = 3)) [imgB, imgA] ≠
      List.filter (fun x => decide (x.metadataOf.rating = 3)) [imgA, imgB] := by
  refine ⟨⟨List.Perm.swap imgA imgB [], List.chain'_pair.mpr (by decide)⟩,
    by decide, by decide, by decide⟩

/-- C8 (amended): each gallery sort strategy returns a permutation of
the input that is totally ordered by the strategy's key in the
strategy's direction, and the input list itself is untouched (the
strategies sort a copy; in this relational model the input is a pure
value the relation never alters).  Tie order between equal keys is not
part of the guarantee, since `sort.Slice` is not a stable sort. -/
theorem gallery_sort_contract (ascending : Bool) (input output : List Img) :
    (sortByDate ascending input output →
      output.Perm input ∧ sortedBy (dateLE ascending) output) ∧
    (sortByRating ascending input output →
      output.Perm input ∧ sortedBy (ratingLE ascending) output) := by
  constructor
  · rintro ⟨hp, hc⟩
    refine ⟨hp, List.Chain'.imp ?_ hc⟩
    intro a b hab
    unfold dateLess at hab
    unfold dateLE
    cases ascending <;> simp at hab ⊢ <;> omega
  · rintro ⟨hp, hc⟩
    refine ⟨hp, List.Chain'.imp ?_ hc⟩
    intro a b hab
    unfold ratingLess at hab
    unfold ratingLE
    cases ascending <;> simp at hab ⊢ <;> omega

/-- Witness for C8's amended theorem: a concrete unsorted input and its
date-ascending sorted output. -/
theorem gallery_sort_contract_witness :
    [imgA, imgB].Perm [imgB, imgA] ∧ sortedBy (dateLE true) [imgA, imgB] :=
  (gallery_sort_contract true [imgB, imgA] [imgA, imgB]).1
    ⟨List.Perm.swap imgB imgA [], List.chain'_pair.mpr (by decide)⟩

end PhotoApp
